import Mathlib

/-!
Shallow embedding of `iMatic/devices.py` (SainSmart Ethernet relay client).

The module-level data (`CHANNEL_8`, `CHANNEL_16`, the two command tables) and
the class `EthernetRelay` are translated directly.  The socket transport is
modelled by an input stream of responses, one entry per `sock.recv(8)` call
(i.e. one per command sent inside `control`); each response is a list of byte
values (`< 256`).  The connection descriptor (`host`, `port`, `timeout`) only
parameterizes the socket calls and carries no protocol meaning, so it is not
part of the modelled state.
-/

set_option autoImplicit false

namespace IMatic

def CHANNEL_8 : Bool := false

def CHANNEL_16 : Bool := true

def CHANNEL_8_COMMANDS : List String :=
  ["FD022001015D", "FD022001005D", "FD022002015D", "FD022002005D", "FD022003015D",
   "FD022003005D", "FD022004015D", "FD022004005D", "FD022005015D", "FD022005005D",
   "FD022006015D", "FD022006005D", "FD022007015D", "FD022007005D", "FD022008015D",
   "FD022008005D", "FD0220F8885D", "FD0220F8805D"]

def CHANNEL_16_COMMANDS : List String :=
  ["580112000000016C", "580111000000016B", "580112000000026D", "580111000000026C",
   "580112000000036E", "580111000000036D", "580112000000046F", "580111000000046E",
   "5801120000000570", "580111000000056F", "5801120000000671", "5801110000000670",
   "5801120000000772", "5801110000000771", "5801120000000873", "5801110000000872",
   "5801120000000974", "5801110000000973", "5801120000000A75", "5801110000000A74",
   "5801120000000B76", "5801110000000B75", "5801120000000C77", "5801110000000C76",
   "5801120000000D78", "5801110000000D77", "5801120000000E79", "5801110000000E78",
   "5801120000000F7A", "5801110000000F79", "580112000000107B", "580111000000107A",
   "5801130000FFFF77", "580113000000007B", "5801100000000069"]

/-- Errors raised by the controller, mirroring the Python exception classes:
`IndexError` from `check_index`, `IndexError` from indexing `state_bits_str`
past its end inside `control`, and `ValueError` from `verify`. -/
inductive Err where
  | indexErr (i : Int)
  | decodeErr (ri : Nat)
  | mismatch (k : Nat) (v : Bool)
deriving Repr, DecidableEq

/-- `"\x7b:08b\x7d".format(b)` for a byte `b < 256`: the 8 binary digits of `b`,
most significant bit first, with `'1'` rendered as `true`. -/
def byteBits (b : Nat) : List Bool :=
  [b.testBit 7, b.testBit 6, b.testBit 5, b.testBit 4,
   b.testBit 3, b.testBit 2, b.testBit 1, b.testBit 0]

/-- The response-parsing block of `EthernetRelay.control`:

    state_bits_str = ""
    if (len(resp) > 2):
        state_bits_str = "\x7b:08b\x7d".format(resp[len(resp)-2]) + state_bits_str
    if (len(resp) > 4):
        state_bits_str = "\x7b:08b\x7d".format(resp[len(resp)-3]) + state_bits_str
    state_bits_str = state_bits_str[::-1]

The string of `'0'`/`'1'` characters is modelled as a list of booleans. -/
def decodeBits (resp : List Nat) : List Bool :=
  let s : List Bool := []
  let s : List Bool :=
    if resp.length > 2 then byteBits (resp.getD (resp.length - 2) 0) ++ s else s
  let s : List Bool :=
    if resp.length > 4 then byteBits (resp.getD (resp.length - 3) 0) ++ s else s
  s.reverse

/-- The state-update loop of `EthernetRelay.control`:

    for ri in range(len(self._relays)):
        self._relays[ri] = (state_bits_str[ri] == '1')

walked structurally: position `ri` of the relay list receives bit `ri` of
`bits` until either the positions are exhausted (normal termination) or the
bits are exhausted first, in which case `state_bits_str[ri]` raises an
`IndexError` at the current loop index `ri`, leaving the positions from `ri`
on unchanged.  Returns the `IndexError` index (if any) and the relay list as
it stands when the loop stops. -/
def applyBitsAux : List Bool → List Bool → Nat → Option Nat × List Bool
  | [], _, _ => (none, [])
  | _ :: rs, b :: bs, ri =>
      let p := applyBitsAux rs bs (ri + 1)
      (p.1, b :: p.2)
  | rs, [], ri => (some ri, rs)

def applyBits (relays bits : List Bool) : Option Nat × List Bool :=
  applyBitsAux relays bits 0

/-- The comparison loop of `EthernetRelay.verify`:

    index = 0
    for i, j in zip(self._relays, state):
        if i != j:
            raise ValueError(... index ... j ...)
        index += 1

Returns the `(index, j)` of the first mismatch, or `none`. -/
def firstMismatch : List Bool → List Bool → Nat → Option (Nat × Bool)
  | x :: xs, y :: ys, index =>
      if x ≠ y then some (index, y) else firstMismatch xs ys (index + 1)
  | _, _, _ => none

/-- The mutable state of an `EthernetRelay` instance that takes part in the
protocol: `self._relays` and `self._commands`. -/
structure EthernetRelay where
  commands : List String
  relays : List Bool
deriving Repr, DecidableEq

deriving instance DecidableEq for Except

/-- Outcome of running one controller method: the result (`.ok ()` for a
normal return, `.error e` for a raised exception), the instance state
afterwards, the responses not yet consumed from the device stream, and the
command batches passed to `control`, in order. -/
structure Out where
  res : Except Err Unit
  rel : EthernetRelay
  pend : List (List Nat)
  sent : List (List String)
deriving Repr, DecidableEq

namespace EthernetRelay

/-- `EthernetRelay.check_index`. -/
def check_index (self : EthernetRelay) (relay_index : Int) : Except Err Unit :=
  if relay_index < 0 then
    .error (.indexErr relay_index)
  else if relay_index ≥ (self.relays.length : Int) then
    .error (.indexErr relay_index)
  else
    .ok ()

/-- `EthernetRelay.control`.  One connection is opened; each command of
`cmdList` is sent and answered by the next response of the stream, `resp`
keeping only the last answer (`resp = []` when `cmdList` is empty).  The
final answer is parsed and written into `self._relays` channel by channel. -/
def control (self : EthernetRelay) (resps : List (List Nat))
    (cmdList : List String) : Out :=
  let resp : List Nat := (resps.take cmdList.length).getLastD []
  let rest : List (List Nat) := resps.drop cmdList.length
  let p := applyBits self.relays (decodeBits resp)
  match p.1 with
  | none => ⟨.ok (), { self with relays := p.2 }, rest, [cmdList]⟩
  | some ri => ⟨.error (.decodeErr ri), { self with relays := p.2 }, rest, [cmdList]⟩

/-- `EthernetRelay.state`: send the last command of the table as a singleton
batch through `control`.  (The Python method returns `self._relays` itself,
i.e. the `relays` field of the resulting state.) -/
def state (self : EthernetRelay) (resps : List (List Nat)) : Out :=
  let state_cmd := self.commands.getD (self.commands.length - 1) ""
  self.control resps [state_cmd]

/-- `EthernetRelay.verify`: run `state()`, then compare `self._relays` with
the returned list.  `state()` returns the very object `self._relays` that
`control` mutated in place, so at comparison time both sides of the `zip`
are the relay list of the post-`state()` instance. -/
def verify (self : EthernetRelay) (resps : List (List Nat)) : Out :=
  let o := self.state resps
  match o.res with
  | .error _ => o
  | .ok _ =>
      match firstMismatch o.rel.relays o.rel.relays 0 with
      | some kv => { o with res := .error (.mismatch kv.1 kv.2) }
      | none => o

/-- `EthernetRelay.turn_on`. -/
def turn_on (self : EthernetRelay) (relay_index : Int)
    (resps : List (List Nat)) : Out :=
  match self.check_index relay_index with
  | .error e => ⟨.error e, self, resps, []⟩
  | .ok _ =>
      let o := self.control resps [self.commands.getD (relay_index.toNat * 2 + 0) ""]
      match o.res with
      | .error _ => o
      | .ok _ =>
          let r2 := { o.rel with relays := o.rel.relays.set relay_index.toNat true }
          let o2 := r2.verify o.pend
          { o2 with sent := o.sent ++ o2.sent }

/-- `EthernetRelay.turn_off`. -/
def turn_off (self : EthernetRelay) (relay_index : Int)
    (resps : List (List Nat)) : Out :=
  match self.check_index relay_index with
  | .error e => ⟨.error e, self, resps, []⟩
  | .ok _ =>
      let o := self.control resps [self.commands.getD (relay_index.toNat * 2 + 1) ""]
      match o.res with
      | .error _ => o
      | .ok _ =>
          let r2 := { o.rel with relays := o.rel.relays.set relay_index.toNat false }
          let o2 := r2.verify o.pend
          { o2 with sent := o.sent ++ o2.sent }

/-- `EthernetRelay.toggle`. -/
def toggle (self : EthernetRelay) (relay_index : Int)
    (resps : List (List Nat)) : Out :=
  match self.check_index relay_index with
  | .error e => ⟨.error e, self, resps, []⟩
  | .ok _ =>
      if self.relays.getD relay_index.toNat false then
        self.turn_off relay_index resps
      else
        self.turn_on relay_index resps

/-- `EthernetRelay.all_on`. -/
def all_on (self : EthernetRelay) (resps : List (List Nat)) : Out :=
  let cmds := (List.range self.relays.length).map
    (fun ri => self.commands.getD (ri * 2 + 0) "")
  let o := self.control resps cmds
  match o.res with
  | .error _ => o
  | .ok _ =>
      let r2 := { o.rel with relays := List.replicate o.rel.relays.length true }
      let o2 := r2.verify o.pend
      { o2 with sent := o.sent ++ o2.sent }

/-- `EthernetRelay.all_off`. -/
def all_off (self : EthernetRelay) (resps : List (List Nat)) : Out :=
  let cmds := (List.range self.relays.length).map
    (fun ri => self.commands.getD (ri * 2 + 1) "")
  let o := self.control resps cmds
  match o.res with
  | .error _ => o
  | .ok _ =>
      let r2 := { o.rel with relays := List.replicate o.rel.relays.length false }
      let o2 := r2.verify o.pend
      { o2 with sent := o.sent ++ o2.sent }

end EthernetRelay

/-- The field initialisation of `EthernetRelay.__init__`:
`self._relays = [False] * (8 if board_type == CHANNEL_8 else 16)` and the
matching command-table selection. -/
def mkRelay (board_type : Bool) : EthernetRelay :=
  { relays := List.replicate (if board_type == CHANNEL_8 then 8 else 16) false
  , commands := if board_type == CHANNEL_8 then CHANNEL_8_COMMANDS else CHANNEL_16_COMMANDS }

/-- `EthernetRelay.__init__`: initialise the fields, then `self.state()`. -/
def init (board_type : Bool) (resps : List (List Nat)) : Out :=
  (mkRelay board_type).state resps

/-- A concrete 8-channel controller instance holding all-off, used by the
concrete evaluations below. -/
def relay8ex : EthernetRelay :=
  ⟨CHANNEL_8_COMMANDS, List.replicate 8 false⟩

/-- A concrete response stream for two `toggle` exchanges: command echoes
decode to all-off, the first verify query reports channel 0 on, the second
reports all-off again. -/
def resps8ex : List (List Nat) :=
  [[0, 0, 0], [0, 1, 0], [0, 0, 0], [0, 0, 0]]

/-! ### Basic lemmas about the update and comparison loops -/

theorem applyBitsAux_snd_length (relays : List Bool) :
    ∀ (bits : List Bool) (ri : Nat), (applyBitsAux relays bits ri).2.length = relays.length := by
  induction relays with
  | nil => intro bits ri; cases bits <;> simp [applyBitsAux]
  | cons r rs ih => intro bits ri; cases bits <;> simp [applyBitsAux, ih]

theorem applyBitsAux_of_le (relays : List Bool) :
    ∀ (bits : List Bool) (ri : Nat), relays.length ≤ bits.length →
      applyBitsAux relays bits ri = (none, bits.take relays.length) := by
  induction relays with
  | nil => intro bits ri _; cases bits <;> simp [applyBitsAux]
  | cons r rs ih =>
      intro bits ri h
      cases bits with
      | nil => simp at h
      | cons b bs =>
          simp only [List.length_cons, Nat.add_le_add_iff_right] at h
          simp [applyBitsAux, ih bs (ri + 1) h]

theorem applyBitsAux_of_lt (relays : List Bool) :
    ∀ (bits : List Bool) (ri : Nat), bits.length < relays.length →
      applyBitsAux relays bits ri =
        (some (ri + bits.length), bits ++ relays.drop bits.length) := by
  induction relays with
  | nil => intro bits ri h; simp at h
  | cons r rs ih =>
      intro bits ri h
      cases bits with
      | nil => simp [applyBitsAux]
      | cons b bs =>
          simp only [List.length_cons, Nat.add_lt_add_iff_right] at h
          simp [applyBitsAux, ih bs (ri + 1) h]
          omega

theorem applyBits_of_le (relays bits : List Bool) (h : relays.length ≤ bits.length) :
    applyBits relays bits = (none, bits.take relays.length) :=
  applyBitsAux_of_le relays bits 0 h

theorem applyBits_of_lt (relays bits : List Bool) (h : bits.length < relays.length) :
    applyBits relays bits = (some bits.length, bits ++ relays.drop bits.length) := by
  rw [applyBits, applyBitsAux_of_lt relays bits 0 h, Nat.zero_add]

theorem applyBits_fst_eq_none (relays bits : List Bool)
    (h : (applyBits relays bits).1 = none) : relays.length ≤ bits.length := by
  by_contra hlt
  rw [applyBits_of_lt relays bits (by omega)] at h
  simp at h

theorem firstMismatch_self (l : List Bool) :
    ∀ index : Nat, firstMismatch l l index = none := by
  induction l with
  | nil => intro index; simp [firstMismatch]
  | cons x xs ih => intro index; simp [firstMismatch, ih]

/-! ### Lemmas about response decoding -/

theorem byteBits_length (b : Nat) : (byteBits b).length = 8 := rfl

theorem decodeBits_of_short (resp : List Nat) (h : resp.length < 3) :
    decodeBits resp = [] := by
  rw [decodeBits]
  simp only [if_neg (by omega : ¬resp.length > 2), if_neg (by omega : ¬resp.length > 4)]
  rfl

theorem decodeBits_of_mid (resp : List Nat) (h3 : 3 ≤ resp.length) (h4 : resp.length ≤ 4) :
    decodeBits resp = (byteBits (resp.getD (resp.length - 2) 0)).reverse := by
  rw [decodeBits]
  simp only [if_pos (by omega : resp.length > 2), if_neg (by omega : ¬resp.length > 4)]
  simp

theorem decodeBits_of_long (resp : List Nat) (h5 : 5 ≤ resp.length) :
    decodeBits resp =
      (byteBits (resp.getD (resp.length - 3) 0) ++ byteBits (resp.getD (resp.length - 2) 0)).reverse := by
  rw [decodeBits]
  simp only [if_pos (by omega : resp.length > 2), if_pos (by omega : resp.length > 4)]
  simp

theorem decodeBits_length_of_mid (resp : List Nat) (h3 : 3 ≤ resp.length)
    (h4 : resp.length ≤ 4) : (decodeBits resp).length = 8 := by
  rw [decodeBits_of_mid resp h3 h4]
  simp [byteBits]

namespace EthernetRelay

/-! ### Lemmas about `control`, `state` and `verify` -/

theorem control_ok (self : EthernetRelay) (resps : List (List Nat)) (cmdList : List String)
    (h : self.relays.length ≤ (decodeBits ((resps.take cmdList.length).getLastD [])).length) :
    self.control resps cmdList =
      ⟨.ok (),
       { self with relays :=
          (decodeBits ((resps.take cmdList.length).getLastD [])).take self.relays.length },
       resps.drop cmdList.length, [cmdList]⟩ := by
  rw [control, applyBits_of_le _ _ h]

theorem control_err (self : EthernetRelay) (resps : List (List Nat)) (cmdList : List String)
    (h : (decodeBits ((resps.take cmdList.length).getLastD [])).length < self.relays.length) :
    self.control resps cmdList =
      ⟨.error (.decodeErr (decodeBits ((resps.take cmdList.length).getLastD [])).length),
       { self with relays :=
          decodeBits ((resps.take cmdList.length).getLastD [])
            ++ self.relays.drop (decodeBits ((resps.take cmdList.length).getLastD [])).length },
       resps.drop cmdList.length, [cmdList]⟩ := by
  rw [control, applyBits_of_lt _ _ h]

theorem control_rel_length (self : EthernetRelay) (resps : List (List Nat))
    (cmdList : List String) :
    (self.control resps cmdList).rel.relays.length = self.relays.length := by
  rw [control]
  rcases h : applyBits self.relays (decodeBits ((resps.take cmdList.length).getLastD [])) with ⟨e, rel2⟩
  have hlen : rel2.length = self.relays.length := by
    have := applyBitsAux_snd_length self.relays
      (decodeBits ((resps.take cmdList.length).getLastD [])) 0
    rw [applyBits] at h
    rw [h] at this
    exact this
  cases e <;> simp [hlen]

theorem control_sent (self : EthernetRelay) (resps : List (List Nat)) (cmdList : List String) :
    (self.control resps cmdList).sent = [cmdList] := by
  rw [control]
  rcases applyBits self.relays (decodeBits ((resps.take cmdList.length).getLastD [])) with ⟨e, rel2⟩
  cases e <;> rfl

theorem state_eq (self : EthernetRelay) (resps : List (List Nat)) :
    self.state resps = self.control resps [self.commands.getD (self.commands.length - 1) ""] := rfl

theorem verify_eq_state (self : EthernetRelay) (resps : List (List Nat)) :
    self.verify resps = self.state resps := by
  rw [verify]
  rcases h : (self.state resps).res with e | u
  · simp [h]
  · simp [h, firstMismatch_self]

end EthernetRelay

theorem getD_set_self {α : Type _} (l : List α) (n : Nat) (a d : α) (h : n < l.length) :
    (l.set n a).getD n d = a := by
  rw [List.getD_eq_getElem?_getD, List.getElem?_set_self h]
  rfl

namespace EthernetRelay

theorem state_rel_length (self : EthernetRelay) (resps : List (List Nat)) :
    (self.state resps).rel.relays.length = self.relays.length := by
  rw [state_eq]
  exact control_rel_length self resps _

theorem verify_rel_length (self : EthernetRelay) (resps : List (List Nat)) :
    (self.verify resps).rel.relays.length = self.relays.length := by
  rw [verify_eq_state]
  exact state_rel_length self resps

theorem turn_on_rel_length (self : EthernetRelay) (i : Int) (resps : List (List Nat)) :
    (self.turn_on i resps).rel.relays.length = self.relays.length := by
  rw [turn_on]
  rcases self.check_index i with e | u
  · rfl
  · rcases h2 : (self.control resps [self.commands.getD (i.toNat * 2 + 0) ""]).res with e | u2
    · simp only [h2]
      exact control_rel_length self resps _
    · simp only [h2]
      rw [verify_rel_length]
      simp [control_rel_length self resps]

theorem turn_off_rel_length (self : EthernetRelay) (i : Int) (resps : List (List Nat)) :
    (self.turn_off i resps).rel.relays.length = self.relays.length := by
  rw [turn_off]
  rcases self.check_index i with e | u
  · rfl
  · rcases h2 : (self.control resps [self.commands.getD (i.toNat * 2 + 1) ""]).res with e | u2
    · simp only [h2]
      exact control_rel_length self resps _
    · simp only [h2]
      rw [verify_rel_length]
      simp [control_rel_length self resps]

theorem toggle_rel_length (self : EthernetRelay) (i : Int) (resps : List (List Nat)) :
    (self.toggle i resps).rel.relays.length = self.relays.length := by
  rw [toggle]
  rcases self.check_index i with e | u
  · rfl
  · cases self.relays.getD i.toNat false
    · simp [turn_on_rel_length]
    · simp [turn_off_rel_length]

theorem all_on_rel_length (self : EthernetRelay) (resps : List (List Nat)) :
    (self.all_on resps).rel.relays.length = self.relays.length := by
  rw [all_on]
  rcases h2 : (self.control resps ((List.range self.relays.length).map
      (fun ri => self.commands.getD (ri * 2 + 0) ""))).res with e | u2
  · simp only [h2]
    exact control_rel_length self resps _
  · simp only [h2]
    rw [verify_rel_length]
    simp [control_rel_length self resps]

theorem all_off_rel_length (self : EthernetRelay) (resps : List (List Nat)) :
    (self.all_off resps).rel.relays.length = self.relays.length := by
  rw [all_off]
  rcases h2 : (self.control resps ((List.range self.relays.length).map
      (fun ri => self.commands.getD (ri * 2 + 1) ""))).res with e | u2
  · simp only [h2]
    exact control_rel_length self resps _
  · simp only [h2]
    rw [verify_rel_length]
    simp [control_rel_length self resps]

theorem check_index_ok (self : EthernetRelay) (i : Int)
    (h0 : 0 ≤ i) (hN : i < (self.relays.length : Int)) :
    self.check_index i = .ok () := by
  rw [check_index, if_neg (by omega : ¬i < 0), if_neg (by omega : ¬i ≥ (self.relays.length : Int))]

/-- `control` on a singleton batch consumes exactly the first response. -/
theorem control_ok_one (self : EthernetRelay) (x : List Nat) (t : List (List Nat)) (c : String)
    (h : self.relays.length ≤ (decodeBits x).length) :
    self.control (x :: t) [c] =
      ⟨.ok (), { self with relays := (decodeBits x).take self.relays.length }, t, [[c]]⟩ :=
  control_ok self (x :: t) [c] h

/-- A full run of `turn_on` on a faithful device: the first response decodes
wide enough, and the verify-query response decodes to the locally computed
state (the first decode with bit `i` forced on). -/
theorem turn_on_run (self : EthernetRelay) (i : Int) (x y : List Nat) (rest : List (List Nat))
    (h0 : 0 ≤ i) (hN : i < (self.relays.length : Int))
    (hx : self.relays.length ≤ (decodeBits x).length)
    (hy : (decodeBits y).take self.relays.length =
        ((decodeBits x).take self.relays.length).set i.toNat true) :
    self.turn_on i (x :: y :: rest) =
      ⟨.ok (),
       { self with relays := (decodeBits y).take self.relays.length },
       rest,
       [[self.commands.getD (i.toNat * 2 + 0) ""],
        [self.commands.getD (self.commands.length - 1) ""]]⟩ := by
  have hylen : self.relays.length ≤ (decodeBits y).length := by
    have := congrArg List.length hy
    simp only [List.length_take, List.length_set] at this
    omega
  have hr2len :
      (((decodeBits x).take self.relays.length).set i.toNat true).length
        = self.relays.length := by
    simp only [List.length_set, List.length_take]
    omega
  rw [turn_on, check_index_ok self i h0 hN]
  rw [control_ok_one self x (y :: rest) _ hx]
  simp only
  rw [verify_eq_state, state_eq]
  rw [control_ok_one _ y rest _ (by rw [hr2len]; exact hylen)]
  rw [hr2len]
  rfl

/-- A full run of `turn_off` on a faithful device. -/
theorem turn_off_run (self : EthernetRelay) (i : Int) (x y : List Nat) (rest : List (List Nat))
    (h0 : 0 ≤ i) (hN : i < (self.relays.length : Int))
    (hx : self.relays.length ≤ (decodeBits x).length)
    (hy : (decodeBits y).take self.relays.length =
        ((decodeBits x).take self.relays.length).set i.toNat false) :
    self.turn_off i (x :: y :: rest) =
      ⟨.ok (),
       { self with relays := (decodeBits y).take self.relays.length },
       rest,
       [[self.commands.getD (i.toNat * 2 + 1) ""],
        [self.commands.getD (self.commands.length - 1) ""]]⟩ := by
  have hylen : self.relays.length ≤ (decodeBits y).length := by
    have := congrArg List.length hy
    simp only [List.length_take, List.length_set] at this
    omega
  have hr2len :
      (((decodeBits x).take self.relays.length).set i.toNat false).length
        = self.relays.length := by
    simp only [List.length_set, List.length_take]
    omega
  rw [turn_off, check_index_ok self i h0 hN]
  rw [control_ok_one self x (y :: rest) _ hx]
  simp only
  rw [verify_eq_state, state_eq]
  rw [control_ok_one _ y rest _ (by rw [hr2len]; exact hylen)]
  rw [hr2len]
  rfl

theorem control_res_not_mismatch (self : EthernetRelay) (resps : List (List Nat))
    (cmdList : List String) (k : Nat) (v : Bool) :
    (self.control resps cmdList).res ≠ .error (.mismatch k v) := by
  rw [control]
  rcases h : applyBits self.relays (decodeBits ((resps.take cmdList.length).getLastD [])) with ⟨e, rel2⟩
  cases e <;> simp

end EthernetRelay

/-! ### Claim theorems -/

/-- C1: the claim says that whenever the held relay vector disagrees with the
vector decoded from the query response, `verify` fails with the mismatch
(`ValueError`) naming the first differing index.  In the code, `state()`
returns the very list object `self._relays` that `control` just overwrote in
place with the decoded vector, so `verify` compares that list with itself:
the mismatch error is unreachable, and a controller holding all-on whose
device reports all-off (five zero bytes decode to sixteen `false` bits)
passes `verify` silently. -/
theorem C1_verify_silently_accepts_mismatch :
    (∀ (self : EthernetRelay) (resps : List (List Nat)) (k : Nat) (v : Bool),
      (self.verify resps).res ≠ .error (.mismatch k v)) ∧
    ((EthernetRelay.mk CHANNEL_16_COMMANDS (List.replicate 16 true)).verify
        [[0, 0, 0, 0, 0]]).res = .ok () ∧
    decodeBits [0, 0, 0, 0, 0] ≠ List.replicate 16 true := by
  refine ⟨?_, by decide, by decide⟩
  intro self resps k v
  rw [EthernetRelay.verify_eq_state, EthernetRelay.state_eq]
  exact EthernetRelay.control_res_not_mismatch self resps _ k v

/-- C2: when the vector decoded from the query response coincides with the
held relay vector, `verify` returns normally and the controller state after
the call is (extensionally) the state before it. -/
theorem C2_verify_full_match_frame (self : EthernetRelay) (q : List Nat)
    (rest : List (List Nat))
    (hlen : self.relays.length ≤ (decodeBits q).length)
    (hmatch : (decodeBits q).take self.relays.length = self.relays) :
    (self.verify (q :: rest)).res = .ok () ∧
    (self.verify (q :: rest)).rel = self ∧
    (self.verify (q :: rest)).pend = rest := by
  rw [EthernetRelay.verify_eq_state, EthernetRelay.state_eq,
    EthernetRelay.control_ok_one self q rest _ hlen, hmatch]
  exact ⟨rfl, rfl, rfl⟩

/-- Witness for C2 at a 16-channel controller holding all-off whose device
reports all-off (five zero bytes). -/
theorem C2_verify_full_match_frame_witness :
    (mkRelay CHANNEL_16).relays.length ≤ (decodeBits [0, 0, 0, 0, 0]).length ∧
    (decodeBits [0, 0, 0, 0, 0]).take (mkRelay CHANNEL_16).relays.length
      = (mkRelay CHANNEL_16).relays ∧
    (((mkRelay CHANNEL_16).verify [[0, 0, 0, 0, 0]]).res = .ok () ∧
     ((mkRelay CHANNEL_16).verify [[0, 0, 0, 0, 0]]).rel = mkRelay CHANNEL_16 ∧
     ((mkRelay CHANNEL_16).verify [[0, 0, 0, 0, 0]]).pend = []) :=
  ⟨by decide, by decide,
   C2_verify_full_match_frame (mkRelay CHANNEL_16) [0, 0, 0, 0, 0] [] (by decide) (by decide)⟩

/-- C3 counterexample: for the 3-byte response `[X, B, A] = [170, 0, 1]` with
`A = 0x01` and `B = 0x00`, the code decodes only the second-to-last byte
(`B`), giving eight `false` bits: channel 7 is `false`, not `true` as the
claim states, and the third-to-last byte is not consulted at all for
responses of fewer than 5 bytes. -/
theorem C3_counterexample :
    decodeBits [170, 0, 1] = List.replicate 8 false ∧
    (decodeBits [170, 0, 1]).getD 7 false ≠ true ∧
    decodeBits [170, 0, 1] ≠ (byteBits 170 ++ byteBits 0).reverse := by
  decide

/-- C3 (amended): for a final response of 3 or 4 bytes the decode is the
reversal of the MSB-first bits of the second-to-last byte alone; only for a
response of at least 5 bytes is the third-to-last byte prepended before the
reversal; bit `i` of the reversed string is assigned to channel `i`; and for
the synthetic 3-byte response `[X, B, A]` with `A = 0x01`, `B = 0x00` the
decoded vector is eight `false` bits (all channels off). -/
theorem C3_decode_amended (resp : List Nat) :
    (3 ≤ resp.length → resp.length ≤ 4 →
      decodeBits resp = (byteBits (resp.getD (resp.length - 2) 0)).reverse) ∧
    (5 ≤ resp.length →
      decodeBits resp =
        (byteBits (resp.getD (resp.length - 3) 0)
          ++ byteBits (resp.getD (resp.length - 2) 0)).reverse) ∧
    (∀ relays : List Bool, relays.length ≤ (decodeBits resp).length →
      applyBits relays (decodeBits resp) = (none, (decodeBits resp).take relays.length)) ∧
    (∀ X : Nat, decodeBits [X, 0, 1] = List.replicate 8 false) := by
  refine ⟨decodeBits_of_mid resp, decodeBits_of_long resp,
    fun relays h => applyBits_of_le relays _ h, fun X => ?_⟩
  rw [decodeBits_of_mid [X, 0, 1] (by simp) (by simp)]
  show (byteBits 0).reverse = List.replicate 8 false
  decide

/-- Witness for C3 (amended): a 3-byte and a 5-byte response. -/
theorem C3_decode_amended_witness :
    (3 ≤ [(9 : Nat), 0, 1].length ∧ [(9 : Nat), 0, 1].length ≤ 4) ∧
    (5 ≤ [(2 : Nat), 3, 4, 0, 1].length) ∧
    decodeBits [9, 0, 1] = (byteBits ([(9 : Nat), 0, 1].getD ([(9 : Nat), 0, 1].length - 2) 0)).reverse ∧
    decodeBits [2, 3, 4, 0, 1] =
      (byteBits ([(2 : Nat), 3, 4, 0, 1].getD ([(2 : Nat), 3, 4, 0, 1].length - 3) 0)
        ++ byteBits ([(2 : Nat), 3, 4, 0, 1].getD ([(2 : Nat), 3, 4, 0, 1].length - 2) 0)).reverse :=
  ⟨⟨by decide, by decide⟩, by decide,
   (C3_decode_amended [9, 0, 1]).1 (by decide) (by decide),
   (C3_decode_amended [2, 3, 4, 0, 1]).2.1 (by decide)⟩

/-- C4: if the decoded bit-string is shorter than the channel count,
`control` raises the `IndexError`-class decode error; a final response of
fewer than 3 bytes decodes to the empty bit-string, and then (on any
controller with at least one channel) the error is raised at loop index 0
with the relay vector untouched. -/
theorem C4_short_response (self : EthernetRelay) (resps : List (List Nat))
    (cmdList : List String) :
    ((decodeBits ((resps.take cmdList.length).getLastD [])).length < self.relays.length →
      (self.control resps cmdList).res =
        .error (.decodeErr (decodeBits ((resps.take cmdList.length).getLastD [])).length)) ∧
    (((resps.take cmdList.length).getLastD []).length < 3 →
      decodeBits ((resps.take cmdList.length).getLastD []) = [] ∧
      (0 < self.relays.length →
        (self.control resps cmdList).res = .error (.decodeErr 0) ∧
        (self.control resps cmdList).rel.relays = self.relays)) := by
  constructor
  · intro h
    rw [EthernetRelay.control_err self resps cmdList h]
  · intro h
    have hz := decodeBits_of_short _ h
    refine ⟨hz, fun hpos => ?_⟩
    have h0 : (decodeBits ((resps.take cmdList.length).getLastD [])).length
        < self.relays.length := by
      rw [hz]
      simpa using hpos
    rw [EthernetRelay.control_err self resps cmdList h0]
    refine ⟨?_, ?_⟩ <;> rw [hz] <;> simp

/-- Witness for C4: an 8-channel controller receiving a 2-byte response to a
single command. -/
theorem C4_short_response_witness :
    ((([[(1 : Nat), 2]].take ["FD0220F8805D"].length).getLastD []).length < 3) ∧
    (0 < (mkRelay CHANNEL_8).relays.length) ∧
    (((mkRelay CHANNEL_8).control [[1, 2]] ["FD0220F8805D"]).res = .error (.decodeErr 0) ∧
     ((mkRelay CHANNEL_8).control [[1, 2]] ["FD0220F8805D"]).rel.relays
       = (mkRelay CHANNEL_8).relays) :=
  ⟨by decide, by decide,
   ((C4_short_response (mkRelay CHANNEL_8) [[1, 2]] ["FD0220F8805D"]).2
     (by decide)).2 (by decide)⟩

/-- C5: `check_index i` fails exactly when `i < 0` or `i ≥ channel_count`;
it fails at `-1` and at `N`, and succeeds at `0` and `N - 1` (the channel
count being positive). -/
theorem C5_check_index_boundaries (self : EthernetRelay) (i : Int) :
    ((∃ e, self.check_index i = .error e) ↔
      i < 0 ∨ (self.relays.length : Int) ≤ i) ∧
    self.check_index (-1) = .error (.indexErr (-1)) ∧
    self.check_index (self.relays.length : Int)
      = .error (.indexErr (self.relays.length : Int)) ∧
    (0 < self.relays.length →
      self.check_index 0 = .ok () ∧
      self.check_index ((self.relays.length : Int) - 1) = .ok ()) := by
  refine ⟨?_, ?_, ?_, fun hpos => ⟨?_, ?_⟩⟩
  · rw [EthernetRelay.check_index]
    split_ifs with h1 h2
    · simp
      omega
    · simp
      omega
    · simp
      omega
  · rw [EthernetRelay.check_index, if_pos (by omega : (-1 : Int) < 0)]
  · rw [EthernetRelay.check_index,
      if_neg (by omega : ¬(self.relays.length : Int) < 0),
      if_pos (by omega : (self.relays.length : Int) ≥ (self.relays.length : Int))]
  · rw [EthernetRelay.check_index, if_neg (by omega : ¬(0 : Int) < 0),
      if_neg (by omega : ¬(0 : Int) ≥ (self.relays.length : Int))]
  · rw [EthernetRelay.check_index,
      if_neg (by omega : ¬(self.relays.length : Int) - 1 < 0),
      if_neg (by omega : ¬(self.relays.length : Int) - 1 ≥ (self.relays.length : Int))]

/-- Witness for C5 on the default 16-channel controller. -/
theorem C5_check_index_boundaries_witness :
    0 < (mkRelay CHANNEL_16).relays.length ∧
    ((mkRelay CHANNEL_16).check_index 0 = .ok () ∧
     (mkRelay CHANNEL_16).check_index (((mkRelay CHANNEL_16).relays.length : Int) - 1)
       = .ok ()) :=
  ⟨by decide, (C5_check_index_boundaries (mkRelay CHANNEL_16) 0).2.2.2 (by decide)⟩

/-- C6: for a valid index, `turn_on` validates, sends the single command at
table index `2*i`, sets bit `i` locally to `true`, then verifies (dropping
through to `verify`'s outcome); `turn_off` uses table index `2*i + 1` and
`false`; `toggle` reads the current local bit and dispatches accordingly.
The first batch sent by `turn_on`/`turn_off` is exactly the singleton
on/off command. -/
theorem C6_per_relay_dispatch (self : EthernetRelay) (i : Int) (resps : List (List Nat))
    (h0 : 0 ≤ i) (hN : i < (self.relays.length : Int)) :
    self.check_index i = .ok () ∧
    self.turn_on i resps =
      (let o := self.control resps [self.commands.getD (i.toNat * 2 + 0) ""]
       match o.res with
       | .error _ => o
       | .ok _ =>
           let o2 := EthernetRelay.verify
             { o.rel with relays := o.rel.relays.set i.toNat true } o.pend
           { o2 with sent := o.sent ++ o2.sent }) ∧
    self.turn_off i resps =
      (let o := self.control resps [self.commands.getD (i.toNat * 2 + 1) ""]
       match o.res with
       | .error _ => o
       | .ok _ =>
           let o2 := EthernetRelay.verify
             { o.rel with relays := o.rel.relays.set i.toNat false } o.pend
           { o2 with sent := o.sent ++ o2.sent }) ∧
    self.toggle i resps =
      (if self.relays.getD i.toNat false then self.turn_off i resps
       else self.turn_on i resps) ∧
    (self.turn_on i resps).sent.headD []
      = [self.commands.getD (i.toNat * 2 + 0) ""] ∧
    (self.turn_off i resps).sent.headD []
      = [self.commands.getD (i.toNat * 2 + 1) ""] := by
  have hchk := EthernetRelay.check_index_ok self i h0 hN
  have hon : self.turn_on i resps =
      (let o := self.control resps [self.commands.getD (i.toNat * 2 + 0) ""]
       match o.res with
       | .error _ => o
       | .ok _ =>
           let o2 := EthernetRelay.verify
             { o.rel with relays := o.rel.relays.set i.toNat true } o.pend
           { o2 with sent := o.sent ++ o2.sent }) := by
    rw [EthernetRelay.turn_on, hchk]
  have hoff : self.turn_off i resps =
      (let o := self.control resps [self.commands.getD (i.toNat * 2 + 1) ""]
       match o.res with
       | .error _ => o
       | .ok _ =>
           let o2 := EthernetRelay.verify
             { o.rel with relays := o.rel.relays.set i.toNat false } o.pend
           { o2 with sent := o.sent ++ o2.sent }) := by
    rw [EthernetRelay.turn_off, hchk]
  refine ⟨hchk, hon, hoff, ?_, ?_, ?_⟩
  · rw [EthernetRelay.toggle, hchk]
  · rw [hon]
    rcases h2 : (self.control resps [self.commands.getD (i.toNat * 2 + 0) ""]).res with e | u
    · simp only [h2, EthernetRelay.control_sent, List.cons_append, List.nil_append]
      rfl
    · simp only [h2, EthernetRelay.control_sent, List.cons_append, List.nil_append]
      rfl
  · rw [hoff]
    rcases h2 : (self.control resps [self.commands.getD (i.toNat * 2 + 1) ""]).res with e | u
    · simp only [h2, EthernetRelay.control_sent, List.cons_append, List.nil_append]
      rfl
    · simp only [h2, EthernetRelay.control_sent, List.cons_append, List.nil_append]
      rfl

/-- Witness for C6 on an 8-channel controller at index 0. -/
theorem C6_per_relay_dispatch_witness :
    (0 : Int) ≤ 0 ∧ (0 : Int) < ((mkRelay CHANNEL_8).relays.length : Int) ∧
    (mkRelay CHANNEL_8).toggle 0 [[0, 0, 0], [0, 1, 0]] =
      (if (mkRelay CHANNEL_8).relays.getD (0 : Int).toNat false then
        (mkRelay CHANNEL_8).turn_off 0 [[0, 0, 0], [0, 1, 0]]
       else (mkRelay CHANNEL_8).turn_on 0 [[0, 0, 0], [0, 1, 0]]) ∧
    ((mkRelay CHANNEL_8).turn_on 0 [[0, 0, 0], [0, 1, 0]]).sent.headD []
      = [(mkRelay CHANNEL_8).commands.getD ((0 : Int).toNat * 2 + 0) ""] :=
  ⟨by decide, by decide,
   (C6_per_relay_dispatch (mkRelay CHANNEL_8) 0 [[0, 0, 0], [0, 1, 0]]
      (by decide) (by decide)).2.2.2.1,
   (C6_per_relay_dispatch (mkRelay CHANNEL_8) 0 [[0, 0, 0], [0, 1, 0]]
      (by decide) (by decide)).2.2.2.2.1⟩

/-- C7: the 8-channel table has 18 entries and the 16-channel table 35;
`state` sends the table's last entry as the sole element of a one-command
batch through `control`, and on success the relay vector it returns is the
parsed decode of the (single) response. -/
theorem C7_tables_and_state (self : EthernetRelay) (resps : List (List Nat)) :
    CHANNEL_8_COMMANDS.length = 18 ∧
    CHANNEL_16_COMMANDS.length = 35 ∧
    (self.state resps).sent = [[self.commands.getD (self.commands.length - 1) ""]] ∧
    ((self.state resps).res = .ok () →
      (self.state resps).rel.relays
        = (decodeBits ((resps.take 1).getLastD [])).take self.relays.length) := by
  refine ⟨by decide, by decide, ?_, ?_⟩
  · rw [EthernetRelay.state_eq]
    exact EthernetRelay.control_sent self resps _
  · intro hok
    have hle : self.relays.length ≤ (decodeBits ((resps.take 1).getLastD [])).length := by
      by_contra hlt
      have hlt2 : (decodeBits ((resps.take
          [self.commands.getD (self.commands.length - 1) ""].length).getLastD [])).length
          < self.relays.length := Nat.not_le.mp hlt
      rw [EthernetRelay.state_eq, EthernetRelay.control_err self resps _ hlt2] at hok
      simp at hok
    have hle2 : self.relays.length ≤ (decodeBits ((resps.take
        [self.commands.getD (self.commands.length - 1) ""].length).getLastD [])).length := hle
    rw [EthernetRelay.state_eq, EthernetRelay.control_ok self resps _ hle2]
    rfl

/-- Witness for C7 on the default 16-channel controller with a wide enough
response. -/
theorem C7_tables_and_state_witness :
    ((mkRelay CHANNEL_16).state [[0, 0, 0, 0, 0]]).res = .ok () ∧
    ((mkRelay CHANNEL_16).state [[0, 0, 0, 0, 0]]).rel.relays
      = List.take (mkRelay CHANNEL_16).relays.length
          (decodeBits (([[(0 : Nat), 0, 0, 0, 0]].take 1).getLastD [])) :=
  ⟨by decide,
   (C7_tables_and_state (mkRelay CHANNEL_16) [[0, 0, 0, 0, 0]]).2.2.2 (by decide)⟩

/-- A full run of `toggle` on a faithful device: the command-echo response
decodes wide enough and the verify-query response decodes to the local state
with bit `i` flipped. -/
theorem toggle_run (self : EthernetRelay) (i : Int) (x y : List Nat) (rest : List (List Nat))
    (h0 : 0 ≤ i) (hN : i < (self.relays.length : Int))
    (hx : self.relays.length ≤ (decodeBits x).length)
    (hy : (decodeBits y).take self.relays.length =
        ((decodeBits x).take self.relays.length).set i.toNat
          (!(self.relays.getD i.toNat false))) :
    (self.toggle i (x :: y :: rest)).res = .ok () ∧
    (self.toggle i (x :: y :: rest)).rel
      = { self with relays := (decodeBits y).take self.relays.length } ∧
    (self.toggle i (x :: y :: rest)).pend = rest := by
  cases hcur : self.relays.getD i.toNat false with
  | false =>
      have ht : self.toggle i (x :: y :: rest) = self.turn_on i (x :: y :: rest) := by
        rw [EthernetRelay.toggle, EthernetRelay.check_index_ok self i h0 hN, hcur]
        rfl
      rw [hcur, Bool.not_false] at hy
      rw [ht, EthernetRelay.turn_on_run self i x y rest h0 hN hx hy]
      exact ⟨rfl, rfl, rfl⟩
  | true =>
      have ht : self.toggle i (x :: y :: rest) = self.turn_off i (x :: y :: rest) := by
        rw [EthernetRelay.toggle, EthernetRelay.check_index_ok self i h0 hN, hcur]
        rfl
      rw [hcur, Bool.not_true] at hy
      rw [ht, EthernetRelay.turn_off_run self i x y rest h0 hN hx hy]
      exact ⟨rfl, rfl, rfl⟩

/-- C8: with a faithful device (each command-echo response decodes wide
enough and each verify-query response reports exactly the locally commanded
state), two successive `toggle i` calls both succeed and restore the relay
vector's value at index `i`. -/
theorem C8_toggle_involution (self : EthernetRelay) (i : Int) (a b c d : List Nat)
    (h0 : 0 ≤ i) (hN : i < (self.relays.length : Int))
    (ha : self.relays.length ≤ (decodeBits a).length)
    (hb : (decodeBits b).take self.relays.length =
        ((decodeBits a).take self.relays.length).set i.toNat
          (!(self.relays.getD i.toNat false)))
    (hc : self.relays.length ≤ (decodeBits c).length)
    (hd : (decodeBits d).take self.relays.length =
        ((decodeBits c).take self.relays.length).set i.toNat
          (self.relays.getD i.toNat false)) :
    (self.toggle i [a, b, c, d]).res = .ok () ∧
    ((self.toggle i [a, b, c, d]).rel.toggle i (self.toggle i [a, b, c, d]).pend).res
      = .ok () ∧
    ((self.toggle i [a, b, c, d]).rel.toggle i (self.toggle i [a, b, c, d]).pend).rel.relays.getD
        i.toNat false
      = self.relays.getD i.toNat false := by
  have hiN : i.toNat < self.relays.length := by omega
  have hblen : self.relays.length ≤ (decodeBits b).length := by
    have := congrArg List.length hb
    simp only [List.length_take, List.length_set] at this
    omega
  obtain ⟨t1res, t1rel, t1pend⟩ := toggle_run self i a b [c, d] h0 hN ha hb
  have hL : ((decodeBits b).take self.relays.length).length = self.relays.length := by
    rw [List.length_take]
    omega
  have hN1 : i < ((({ self with
      relays := (decodeBits b).take self.relays.length } : EthernetRelay)).relays.length : Int) := by
    show i < (((decodeBits b).take self.relays.length).length : Int)
    rw [hL]
    exact hN
  have hcur1 : ({ self with
      relays := (decodeBits b).take self.relays.length } : EthernetRelay).relays.getD
        i.toNat false = !(self.relays.getD i.toNat false) := by
    show ((decodeBits b).take self.relays.length).getD i.toNat false = _
    rw [hb]
    exact getD_set_self _ _ _ _ (by rw [List.length_take]; omega)
  have hc1 : ({ self with
      relays := (decodeBits b).take self.relays.length } : EthernetRelay).relays.length
        ≤ (decodeBits c).length := by
    show ((decodeBits b).take self.relays.length).length ≤ _
    rw [hL]
    exact hc
  have hy2 : (decodeBits d).take ({ self with
        relays := (decodeBits b).take self.relays.length } : EthernetRelay).relays.length =
      ((decodeBits c).take ({ self with
        relays := (decodeBits b).take self.relays.length } : EthernetRelay).relays.length).set
          i.toNat
          (!(({ self with
            relays := (decodeBits b).take self.relays.length } : EthernetRelay).relays.getD
              i.toNat false)) := by
    rw [hcur1, Bool.not_not]
    show (decodeBits d).take ((decodeBits b).take self.relays.length).length =
      ((decodeBits c).take ((decodeBits b).take self.relays.length).length).set i.toNat
        (self.relays.getD i.toNat false)
    rw [hL]
    exact hd
  obtain ⟨t2res, t2rel, t2pend⟩ := toggle_run
    { self with relays := (decodeBits b).take self.relays.length } i c d [] h0 hN1 hc1 hy2
  refine ⟨t1res, ?_, ?_⟩
  · rw [t1rel, t1pend]
    exact t2res
  · rw [t1rel, t1pend, t2rel]
    show ((decodeBits d).take ((decodeBits b).take self.relays.length).length).getD
        i.toNat false = self.relays.getD i.toNat false
    have hdd : (decodeBits d).take ((decodeBits b).take self.relays.length).length =
        ((decodeBits c).take self.relays.length).set i.toNat
          (self.relays.getD i.toNat false) := by
      rw [hL]
      exact hd
    rw [hdd]
    exact getD_set_self _ _ _ _ (by rw [List.length_take]; omega)

/-- Witness for C8: an 8-channel controller all-off, toggling index 0 twice
against a device that echoes the commanded state. -/
theorem C8_toggle_involution_witness :
    ((0 : Int) ≤ 0 ∧
     (0 : Int) < (relay8ex.relays.length : Int) ∧
     relay8ex.relays.length ≤ (decodeBits [0, 0, 0]).length ∧
     (decodeBits [0, 1, 0]).take relay8ex.relays.length =
       ((decodeBits [0, 0, 0]).take relay8ex.relays.length).set (0 : Int).toNat
         (!(relay8ex.relays.getD (0 : Int).toNat false))) ∧
    ((relay8ex.toggle 0 resps8ex).res = .ok () ∧
     ((relay8ex.toggle 0 resps8ex).rel.toggle 0 (relay8ex.toggle 0 resps8ex).pend).res
       = .ok () ∧
     ((relay8ex.toggle 0 resps8ex).rel.toggle 0
         (relay8ex.toggle 0 resps8ex).pend).rel.relays.getD (0 : Int).toNat false
       = relay8ex.relays.getD (0 : Int).toNat false) :=
  ⟨⟨by decide, by decide, by decide, by decide⟩,
   C8_toggle_involution relay8ex 0 [0, 0, 0] [0, 1, 0] [0, 0, 0] [0, 0, 0]
     (by decide) (by decide) (by decide) (by decide) (by decide) (by decide)⟩

/-- C9: on a 16-channel controller a final response of 3 or 4 bytes decodes
to exactly 8 bits; `control` then overwrites channels 0-7 from the decoded
bits, raises the decode `IndexError` at loop index 8, and channels 8-15 keep
their prior values: the failing operation is not atomic on the vector. -/
theorem C9_partial_update (self : EthernetRelay) (resps : List (List Nat))
    (cmdList : List String)
    (h16 : self.relays.length = 16)
    (h3 : 3 ≤ ((resps.take cmdList.length).getLastD []).length)
    (h4 : ((resps.take cmdList.length).getLastD []).length ≤ 4) :
    (decodeBits ((resps.take cmdList.length).getLastD [])).length = 8 ∧
    (self.control resps cmdList).res = .error (.decodeErr 8) ∧
    (self.control resps cmdList).rel.relays =
      decodeBits ((resps.take cmdList.length).getLastD []) ++ self.relays.drop 8 := by
  have hlen : (decodeBits ((resps.take cmdList.length).getLastD [])).length = 8 :=
    decodeBits_length_of_mid _ h3 h4
  have hlt : (decodeBits ((resps.take cmdList.length).getLastD [])).length
      < self.relays.length := by
    rw [hlen, h16]
    omega
  rw [EthernetRelay.control_err self resps cmdList hlt]
  refine ⟨hlen, ?_, ?_⟩ <;> rw [hlen]

/-- Witness for C9: an all-on 16-channel controller receiving the 3-byte
response `[0, 1, 0]`. -/
theorem C9_partial_update_witness :
    ((EthernetRelay.mk CHANNEL_16_COMMANDS (List.replicate 16 true)).relays.length = 16 ∧
     3 ≤ (([[(0 : Nat), 1, 0]].take ["5801100000000069"].length).getLastD []).length ∧
     (([[(0 : Nat), 1, 0]].take ["5801100000000069"].length).getLastD []).length ≤ 4) ∧
    ((decodeBits (([[(0 : Nat), 1, 0]].take ["5801100000000069"].length).getLastD [])).length = 8 ∧
     ((EthernetRelay.mk CHANNEL_16_COMMANDS (List.replicate 16 true)).control
        [[0, 1, 0]] ["5801100000000069"]).res = .error (.decodeErr 8) ∧
     ((EthernetRelay.mk CHANNEL_16_COMMANDS (List.replicate 16 true)).control
        [[0, 1, 0]] ["5801100000000069"]).rel.relays =
       decodeBits (([[(0 : Nat), 1, 0]].take ["5801100000000069"].length).getLastD [])
         ++ (EthernetRelay.mk CHANNEL_16_COMMANDS (List.replicate 16 true)).relays.drop 8) :=
  ⟨⟨by decide, by decide, by decide⟩,
   C9_partial_update (EthernetRelay.mk CHANNEL_16_COMMANDS (List.replicate 16 true))
     [[0, 1, 0]] ["5801100000000069"] (by decide) (by decide) (by decide)⟩

/-- C10: the relay vector's length is fixed at construction (8 iff the board
flag equals `CHANNEL_8`, 16 for the other flag value, including the default
`CHANNEL_16`), and every public operation leaves the length unchanged
whether it returns normally or with an error. -/
theorem C10_length_invariant :
    (∀ bt : Bool, bt = CHANNEL_8 → (mkRelay bt).relays.length = 8) ∧
    (∀ bt : Bool, bt ≠ CHANNEL_8 → (mkRelay bt).relays.length = 16) ∧
    (mkRelay CHANNEL_16).relays.length = 16 ∧
    (∀ (bt : Bool) (resps : List (List Nat)),
      (init bt resps).rel.relays.length = (mkRelay bt).relays.length) ∧
    (∀ (self : EthernetRelay) (resps : List (List Nat)) (i : Int),
      (self.state resps).rel.relays.length = self.relays.length ∧
      (self.verify resps).rel.relays.length = self.relays.length ∧
      (self.toggle i resps).rel.relays.length = self.relays.length ∧
      (self.turn_on i resps).rel.relays.length = self.relays.length ∧
      (self.turn_off i resps).rel.relays.length = self.relays.length ∧
      (self.all_on resps).rel.relays.length = self.relays.length ∧
      (self.all_off resps).rel.relays.length = self.relays.length) := by
  refine ⟨?_, ?_, by decide, ?_, ?_⟩
  · intro bt h
    subst h
    decide
  · intro bt h
    cases bt with
    | false => exact absurd rfl h
    | true => decide
  · intro bt resps
    exact EthernetRelay.state_rel_length (mkRelay bt) resps
  · intro self resps i
    exact ⟨EthernetRelay.state_rel_length self resps,
      EthernetRelay.verify_rel_length self resps,
      EthernetRelay.toggle_rel_length self i resps,
      EthernetRelay.turn_on_rel_length self i resps,
      EthernetRelay.turn_off_rel_length self i resps,
      EthernetRelay.all_on_rel_length self resps,
      EthernetRelay.all_off_rel_length self resps⟩

/-- Witness for C10 at both board flags. -/
theorem C10_length_invariant_witness :
    (false = CHANNEL_8 ∧ (mkRelay false).relays.length = 8) ∧
    (true ≠ CHANNEL_8 ∧ (mkRelay true).relays.length = 16) :=
  ⟨⟨by decide, C10_length_invariant.1 false (by decide)⟩,
   ⟨by decide, C10_length_invariant.2.1 true (by decide)⟩⟩

end IMatic
